import Mathlib

/-!
# Jobs and triggers gateway (web/jobs/jobs.go)

A shallow embedding of the HTTP handlers of `web/jobs/jobs.go`: every handler
is a function from the collaborators it calls (permission checker, Scheduler,
Broker, document store), the state of those collaborators and the request to
an `Outcome`: the value returned to the caller, the collaborator state after
the call and the list of collaborator calls made, in order.
-/

namespace Jobs

/-! ## Errors -/

/-- Error values flowing through the handlers (Go `error` interface values).
The first four are the sentinels compared by `wrapJobsError`; the values of
web/jsonapi, pkg/couchdb and go-multierror, which are not among the sources, are
constructors around what they are built from. -/
inductive Err where
  /-- Sentinel scheduler.ErrNotFoundTrigger. -/
  | errNotFoundTrigger
  /-- Sentinel scheduler.ErrUnknownTrigger. -/
  | errUnknownTrigger
  /-- Sentinel jobs.ErrNotFoundJob. -/
  | errNotFoundJob
  /-- Sentinel jobs.ErrUnknownWorker. -/
  | errUnknownWorker
  /-- Value built by jsonapi.NotFound(err): the 404 category around err. -/
  | notFound (cause : Err)
  /-- Value built by jsonapi.InvalidAttribute(name, err): the 422 category, with the field name. -/
  | invalidAttribute (name : String) (cause : Err)
  /-- Document-store error for which couchdb.IsNoDatabaseError holds. -/
  | noDatabase
  /-- Any other error value, identified by its message. -/
  | other (msg : String)
  /-- Aggregate built by multierror.Append: the individual errors, in order. -/
  | multi (errs : List Err)

/-- Modelled from the spec: couchdb.IsNoDatabaseError (pkg/couchdb is not among the
sources); it recognises the "no database" condition of the document store. -/
def IsNoDatabaseError : Err → Bool
  | .noDatabase => true
  | _ => false

/-- Modelled from the spec: the errors of a write to the document store (pkg/couchdb
is not among the sources), the no-database condition or any other failure of the
store, by its message. The store does not build multierror aggregates. -/
inductive StoreErr where
  | noDatabase
  | other (msg : String)
  deriving DecidableEq, Repr

/-- The error value a store error is when a handler receives it. -/
def StoreErr.toErr : StoreErr → Err
  | .noDatabase => Err.noDatabase
  | .other msg => Err.other msg

/-- The call multierror.Append(errf, err) of the update loop, where errf is nil
(none) or the aggregate built so far and err is not nil. An aggregate keeps its
errors and receives the new one at the end; a new error that is itself an
aggregate is flattened one level. -/
def multierrorAppend (errf : Option Err) (err : Err) : Err :=
  let base : List Err :=
    match errf with
    | none => []
    | some (.multi es) => es
    | some e => [e]
  match err with
  | .multi es => .multi (base ++ es)
  | e => .multi (base ++ [e])

/-- The function wrapJobsError: a switch on the identity of the error. -/
def wrapJobsError (err : Err) : Err :=
  match err with
  | .errNotFoundTrigger => .notFound err
  | .errNotFoundJob => .notFound err
  | .errUnknownWorker => .notFound err
  | .errUnknownTrigger => .invalidAttribute "Type" err
  | _ => err

/-- The internal sentinel conditions. -/
def Err.isSentinel : Err → Bool
  | .errNotFoundTrigger => true
  | .errUnknownTrigger => true
  | .errNotFoundJob => true
  | .errUnknownWorker => true
  | _ => false

/-! ## Records -/

/-- Modelled from the spec: jobs.JobOptions of pkg/jobs (not among the sources), the
options of a job, carried through the gateway uninterpreted. -/
structure JobOptions where
  raw : String
  deriving DecidableEq, Repr

/-- Modelled from the spec: the job State enum of pkg/jobs (not among the sources),
Queued, Running, Done, Errored. -/
inductive State where
  | Queued
  | Running
  | Done
  | Errored
  deriving DecidableEq, Repr

/-- An instant (time.Time), in nanoseconds on the time line. The instants a job
document can hold (years 0 to 9999) are far from the bounds of time.Time, so
adding one hour never saturates and instants are unbounded integers. -/
abbrev Time := Int

/-- The constant time.Hour, in nanoseconds. -/
def Hour : Int := 3600000000000

/-- Modelled from the spec: jobs.Job of pkg/jobs (not among the sources), the job
record, with the attributes of the data model. -/
structure Job where
  id : String
  rev : String
  domain : String
  workerType : String
  message : String
  options : Option JobOptions
  state : State
  queuedAt : Time
  startedAt : Time
  deriving DecidableEq, Repr

/-- The job request jobs.JobRequest, with the fields pushJob fills in. -/
structure JobRequest where
  domain : String
  workerType : String
  options : Option JobOptions
  message : String
  deriving DecidableEq, Repr

/-- The description of a trigger, scheduler.TriggerInfos, with the fields newTrigger
fills in and the trigger id read by apiTrigger.ID. -/
structure TriggerInfos where
  tid : String
  type : String
  workerType : String
  domain : String
  arguments : String
  debounce : String
  options : Option JobOptions
  message : String
  deriving DecidableEq, Repr

/-- A trigger (scheduler.Trigger), seen through its Infos() method. -/
structure Trigger where
  infos : TriggerInfos
  deriving DecidableEq, Repr

/-- Modelled from the spec: TriggerInfos.JobRequest of pkg/scheduler (not among the
sources), the job request made from the template a trigger owns: its domain,
worker type, worker arguments and options. -/
def TriggerInfos.JobRequest (i : TriggerInfos) : JobRequest :=
  { domain := i.domain, workerType := i.workerType, options := i.options, message := i.message }

/-- Body of POST /queue/:worker-type (apiJobRequest). -/
structure apiJobRequest where
  arguments : String
  options : Option JobOptions
  deriving DecidableEq, Repr

/-- Body of POST /triggers (apiTriggerRequest). -/
structure apiTriggerRequest where
  type : String
  arguments : String
  workerType : String
  workerArguments : String
  debounce : String
  options : Option JobOptions
  deriving DecidableEq, Repr

/-- Modelled from the spec: the doctype constant consts.Jobs of pkg/consts (not among
the sources). -/
def consts.Jobs : String := "io.cozy.jobs"

/-- Modelled from the spec: the doctype constant consts.Triggers of pkg/consts (not
among the sources). -/
def consts.Triggers : String := "io.cozy.triggers"

/-! ## Collaborators -/

/-- Permission verbs used by the handlers. -/
inductive Verb where
  | GET
  | POST
  | DELETE
  deriving DecidableEq, Repr

/-- The object handed to permissions.Allow. -/
inductive Resource where
  /-- The apiQueue descriptor, carrying only the worker type. -/
  | queue (workerType : String)
  | jobRequest (jr : JobRequest)
  | trigger (t : Trigger)
  | job (j : Job)
  deriving DecidableEq, Repr

/-- A stored document as the traversal hands it to its callback: the JSON of a
job, or bytes on which json.Unmarshal fails (with the given message). -/
inductive RawDoc where
  | job (j : Job)
  | malformed (msg : String)

/-- The call json.Unmarshal(data, &job) on a stored document. -/
def unmarshal : RawDoc → Except Err Job
  | .job j => .ok j
  | .malformed msg => .error (Err.other msg)

/-- What a traversal of one doctype finds in the tenant document store. The store
is not changed by others while a handler runs: a database that is there when the
traversal starts is there until it ends. -/
inductive DocStore where
  /-- No database is provisioned: the traversal fails with the no-database error
  before any document reaches the callback. -/
  | missing
  /-- The database exists: the traversal yields rows in order and then ends,
  normally (none) or on a failure of the store (some message). -/
  | present (rows : List RawDoc) (failure : Option String)

/-- One call made on a collaborator, as recorded in the call list of an outcome. -/
inductive Call where
  | allow (v : Verb) (r : Resource)
  | allowWholeType (v : Verb) (doctype : String)
  | newTrigger (infos : TriggerInfos)
  | schedulerAdd (t : Trigger)
  | schedulerGet (domain : String) (id : String)
  | schedulerGetAll (domain : String)
  | schedulerDelete (domain : String) (id : String)
  | brokerPushJob (jr : JobRequest)
  | getQueuedJobs (domain : String) (workerType : String)
  | jobsGet (domain : String) (id : String)
  | foreachDocs (doctype : String)
  /-- A couchdb.UpdateDoc call with the document sent and the error it returned. -/
  | updateDoc (j : Job) (err : Option Err)

/-- The collaborators of the gateway, over a state type σ holding everything they
persist (the Scheduler triggers, the Broker queue, the document store). Reads are
functions of the state, writes return the new state. -/
structure Env (σ : Type) where
  /-- The check permissions.Allow(c, verb, object): none when allowed. -/
  allow : Verb → Resource → Option Err
  /-- The check permissions.AllowWholeType(c, verb, doctype): none when allowed. -/
  allowWholeType : Verb → String → Option Err
  /-- The standard function time.ParseDuration. -/
  parseDuration : String → Except Err Int
  /-- The constructor scheduler.NewTrigger: builds and validates, persists nothing. -/
  newTrigger : TriggerInfos → Except Err Trigger
  /-- Scheduler.Add. -/
  schedulerAdd : σ → Trigger → Option Err × σ
  /-- Scheduler.Get(domain, id). -/
  schedulerGet : σ → String → String → Except Err Trigger
  /-- Scheduler.GetAll(domain). -/
  schedulerGetAll : σ → String → Except Err (List Trigger)
  /-- Scheduler.Delete(domain, id). -/
  schedulerDelete : σ → String → String → Option Err × σ
  /-- Broker.PushJob. -/
  brokerPushJob : σ → JobRequest → Except Err Job × σ
  /-- The lookup jobs.GetQueuedJobs(domain, workerType). -/
  getQueuedJobs : σ → String → String → Except Err (List Job)
  /-- The lookup jobs.Get(domain, id). -/
  jobsGet : σ → String → String → Except Err Job
  /-- What couchdb.ForeachDocs finds for a doctype. -/
  docs : σ → String → DocStore
  /-- The write couchdb.UpdateDoc(instance, job): its error, if any, and the state of
  the store after it. -/
  updateDoc : σ → Job → Option StoreErr × σ

/-- Objects given to the serialisation layer. -/
inductive Obj where
  | apiJob (j : Job)
  | apiTrigger (t : Trigger)
  deriving DecidableEq, Repr

/-- What a handler hands to the response encoder, which is taken to succeed. -/
inductive Response where
  /-- A call jsonapi.Data(c, status, obj, nil). -/
  | data (status : Nat) (obj : Obj)
  /-- A call jsonapi.DataList(c, status, objs, nil). -/
  | dataList (status : Nat) (objs : List Obj)
  /-- A call c.NoContent(status). -/
  | noContent (status : Nat)
  /-- The call c.JSON(status, map "deleted" to n). -/
  | deleted (status : Nat) (n : Nat)
  deriving DecidableEq, Repr

/-- Result of running a handler: the value returned, the collaborator state
afterwards and the collaborator calls made, in order. -/
structure Outcome (σ : Type) where
  result : Except Err Response
  state : σ
  calls : List Call

/-! ## Handlers -/

section Handlers

variable {σ : Type}

/-- Handler getQueue (GET /queue/:worker-type). -/
def getQueue (env : Env σ) (s : σ) (domain workerType : String) : Outcome σ :=
  let o := Resource.queue workerType
  let c1 := [Call.allow Verb.GET o]
  match env.allow Verb.GET o with
  | some err => ⟨.error err, s, c1⟩
  | none =>
    let c2 := c1 ++ [Call.getQueuedJobs domain workerType]
    match env.getQueuedJobs s domain workerType with
    | .error err => ⟨.error (wrapJobsError err), s, c2⟩
    | .ok js => ⟨.ok (Response.dataList 200 (js.map Obj.apiJob)), s, c2⟩

/-- Handler pushJob (POST /queue/:worker-type); bind is what jsonapi.Bind made of
the request body. -/
def pushJob (env : Env σ) (s : σ) (domain workerType : String)
    (bind : Except Err apiJobRequest) : Outcome σ :=
  match bind with
  | .error err => ⟨.error (wrapJobsError err), s, []⟩
  | .ok req =>
    let jr : JobRequest :=
      { domain := domain, workerType := workerType, options := req.options,
        message := req.arguments }
    let c1 := [Call.allow Verb.POST (Resource.jobRequest jr)]
    match env.allow Verb.POST (Resource.jobRequest jr) with
    | some err => ⟨.error err, s, c1⟩
    | none =>
      let c2 := c1 ++ [Call.brokerPushJob jr]
      match env.brokerPushJob s jr with
      | (.error err, s') => ⟨.error (wrapJobsError err), s', c2⟩
      | (.ok job, s') => ⟨.ok (Response.data 202 (Obj.apiJob job)), s', c2⟩

/-- The debounce validation of newTrigger: the error of time.ParseDuration on a
non-empty debounce, nothing otherwise. -/
def checkDebounce (env : Env σ) (debounce : String) : Option Err :=
  if debounce ≠ "" then
    match env.parseDuration debounce with
    | .error err => some err
    | .ok _ => none
  else none

/-- Handler newTrigger (POST /triggers). -/
def newTrigger (env : Env σ) (s : σ) (domain : String)
    (bind : Except Err apiTriggerRequest) : Outcome σ :=
  match bind with
  | .error err => ⟨.error (wrapJobsError err), s, []⟩
  | .ok req =>
    match checkDebounce env req.debounce with
    | some err => ⟨.error (Err.invalidAttribute "debounce" err), s, []⟩
    | none =>
      let infos : TriggerInfos :=
        { tid := "", type := req.type, workerType := req.workerType, domain := domain,
          arguments := req.arguments, debounce := req.debounce, options := req.options,
          message := req.workerArguments }
      let c1 := [Call.newTrigger infos]
      match env.newTrigger infos with
      | .error err => ⟨.error (wrapJobsError err), s, c1⟩
      | .ok t =>
        let c2 := c1 ++ [Call.allow Verb.POST (Resource.trigger t)]
        match env.allow Verb.POST (Resource.trigger t) with
        | some err => ⟨.error err, s, c2⟩
        | none =>
          let c3 := c2 ++ [Call.schedulerAdd t]
          match env.schedulerAdd s t with
          | (some err, s') => ⟨.error (wrapJobsError err), s', c3⟩
          | (none, s') => ⟨.ok (Response.data 201 (Obj.apiTrigger t)), s', c3⟩

/-- Handler getTrigger (GET /triggers/:trigger-id). -/
def getTrigger (env : Env σ) (s : σ) (domain triggerID : String) : Outcome σ :=
  let c1 := [Call.schedulerGet domain triggerID]
  match env.schedulerGet s domain triggerID with
  | .error err => ⟨.error (wrapJobsError err), s, c1⟩
  | .ok t =>
    let c2 := c1 ++ [Call.allow Verb.GET (Resource.trigger t)]
    match env.allow Verb.GET (Resource.trigger t) with
    | some err => ⟨.error err, s, c2⟩
    | none => ⟨.ok (Response.data 200 (Obj.apiTrigger t)), s, c2⟩

/-- Handler launchTrigger (POST /triggers/:trigger-id/launch). -/
def launchTrigger (env : Env σ) (s : σ) (domain triggerID : String) : Outcome σ :=
  let c1 := [Call.schedulerGet domain triggerID]
  match env.schedulerGet s domain triggerID with
  | .error err => ⟨.error (wrapJobsError err), s, c1⟩
  | .ok t =>
    let c2 := c1 ++ [Call.allow Verb.POST (Resource.trigger t)]
    match env.allow Verb.POST (Resource.trigger t) with
    | some err => ⟨.error err, s, c2⟩
    | none =>
      let c3 := c2 ++ [Call.brokerPushJob t.infos.JobRequest]
      match env.brokerPushJob s t.infos.JobRequest with
      | (.error err, s') => ⟨.error (wrapJobsError err), s', c3⟩
      | (.ok j, s') => ⟨.ok (Response.data 201 (Obj.apiJob j)), s', c3⟩

/-- Handler deleteTrigger (DELETE /triggers/:trigger-id). -/
def deleteTrigger (env : Env σ) (s : σ) (domain triggerID : String) : Outcome σ :=
  let c1 := [Call.schedulerGet domain triggerID]
  match env.schedulerGet s domain triggerID with
  | .error err => ⟨.error (wrapJobsError err), s, c1⟩
  | .ok t =>
    let c2 := c1 ++ [Call.allow Verb.DELETE (Resource.trigger t)]
    match env.allow Verb.DELETE (Resource.trigger t) with
    | some err => ⟨.error err, s, c2⟩
    | none =>
      let c3 := c2 ++ [Call.schedulerDelete domain triggerID]
      match env.schedulerDelete s domain triggerID with
      | (some err, s') => ⟨.error (wrapJobsError err), s', c3⟩
      | (none, s') => ⟨.ok (Response.noContent 204), s', c3⟩

/-- The filtering loop of getAllTriggers: objs is the slice built so far. -/
def filterLoop (workerFilter : String) : List Trigger → List Obj → List Obj
  | [], objs => objs
  | t :: ts, objs =>
    if workerFilter = "" ∨ t.infos.workerType = workerFilter then
      filterLoop workerFilter ts (objs ++ [Obj.apiTrigger t])
    else
      filterLoop workerFilter ts objs

/-- Handler getAllTriggers (GET /triggers, query parameter Worker). -/
def getAllTriggers (env : Env σ) (s : σ) (domain workerFilter : String) : Outcome σ :=
  let c1 := [Call.allowWholeType Verb.GET consts.Triggers]
  match env.allowWholeType Verb.GET consts.Triggers with
  | some err => ⟨.error err, s, c1⟩
  | none =>
    let c2 := c1 ++ [Call.schedulerGetAll domain]
    match env.schedulerGetAll s domain with
    | .error err => ⟨.error (wrapJobsError err), s, c2⟩
    | .ok ts => ⟨.ok (Response.dataList 200 (filterLoop workerFilter ts [])), s, c2⟩

/-- Handler getJob (GET /:job-id). -/
def getJob (env : Env σ) (s : σ) (domain jobID : String) : Outcome σ :=
  let c1 := [Call.jobsGet domain jobID]
  match env.jobsGet s domain jobID with
  | .error err => ⟨.error err, s, c1⟩
  | .ok job =>
    let c2 := c1 ++ [Call.allow Verb.GET (Resource.job job)]
    match env.allow Verb.GET (Resource.job job) with
    | some err => ⟨.error err, s, c2⟩
    | none => ⟨.ok (Response.data 200 (Obj.apiJob job)), s, c2⟩

/-- The callback cleanJobs gives to the traversal; ups is the slice it appends to.
It returns the slice and the error of the callback, if any. -/
def cleanJobsCallback (now : Time) (ups : List Job) (data : RawDoc) : List Job × Option Err :=
  match unmarshal data with
  | .error err => (ups, some err)
  | .ok job =>
    if job.state ≠ State.Running then (ups, none)
    else if job.startedAt + 1 * Hour < now then (ups ++ [job], none)
    else (ups, none)

/-- The traversal of rows by a callback that stops at the first callback error. -/
def foreachRows {α : Type} (fn : α → RawDoc → α × Option Err) :
    List RawDoc → α → α × Option Err
  | [], acc => (acc, none)
  | d :: ds, acc =>
    match fn acc d with
    | (acc', some err) => (acc', some err)
    | (acc', none) => foreachRows fn ds acc'

/-- Modelled from the spec: couchdb.ForeachDocs (pkg/couchdb is not among the sources),
the ScanAll of the document store. It calls the callback on each document in
order, stops at the first callback error and returns it, and returns the store
failure when the store ends the traversal with one; on a missing database it
fails with the no-database error without calling the callback. Alongside the
error it returns what the callback accumulated. -/
def ForeachDocs {α : Type} (store : DocStore) (fn : α → RawDoc → α × Option Err) (acc : α) :
    α × Option Err :=
  match store with
  | .missing => (acc, some Err.noDatabase)
  | .present rows failure =>
    match foreachRows fn rows acc with
    | (acc', some err) => (acc', some err)
    | (acc', none) => (acc', failure.map Err.other)

/-- The update loop of cleanJobs over the remaining ups, with the aggregate errf
and the calls made so far. -/
def updateLoop (env : Env σ) : List Job → σ → Option Err → List Call → σ × Option Err × List Call
  | [], s, errf, calls => (s, errf, calls)
  | j :: ups, s, errf, calls =>
    let j' : Job := { j with state := State.Done }
    match env.updateDoc s j' with
    | (some err, s') =>
      updateLoop env ups s' (some (multierrorAppend errf err.toErr))
        (calls ++ [Call.updateDoc j' (some err.toErr)])
    | (none, s') =>
      updateLoop env ups s' errf (calls ++ [Call.updateDoc j' none])

/-- The part of cleanJobs after the traversal: the update loop and the response. -/
def cleanJobsFinish (env : Env σ) (s : σ) (calls : List Call) (ups : List Job) : Outcome σ :=
  match updateLoop env ups s none calls with
  | (s', some errf, calls') => ⟨.error errf, s', calls'⟩
  | (s', none, calls') => ⟨.ok (Response.deleted 200 ups.length), s', calls'⟩

/-- Handler cleanJobs (POST /clean); now is the value of time.Now(). -/
def cleanJobs (env : Env σ) (s : σ) (now : Time) : Outcome σ :=
  let c1 := [Call.allowWholeType Verb.GET consts.Jobs]
  match env.allowWholeType Verb.GET consts.Jobs with
  | some err => ⟨.error err, s, c1⟩
  | none =>
    let c2 := c1 ++ [Call.foreachDocs consts.Jobs]
    match ForeachDocs (env.docs s consts.Jobs) (cleanJobsCallback now) [] with
    | (ups, some err) =>
      if IsNoDatabaseError err then cleanJobsFinish env s c2 ups
      else ⟨.error err, s, c2⟩
    | (ups, none) => cleanJobsFinish env s c2 ups

end Handlers

/-! ## Reading an outcome -/

/-- The staleness test of the reaper, as the specification words it: the job is
Running and its start plus one hour lies strictly before the scan time. -/
def isStale (now : Time) (j : Job) : Bool :=
  decide (j.state = State.Running ∧ j.startedAt + Hour < now)

/-- What the store answers when the given jobs are written to it one after the
other, each with its state set to Done, starting from the state s: for each job
the error of couchdb.UpdateDoc, if any. It is made of env.updateDoc alone. -/
def storeAnswers {σ : Type} (env : Env σ) : List Job → σ → List (Option StoreErr)
  | [], _ => []
  | j :: js, s =>
    (env.updateDoc s { j with state := State.Done }).1 ::
      storeAnswers env js (env.updateDoc s { j with state := State.Done }).2

/-- The state of the store after the given jobs have been written to it one after
the other, each exactly once and with its state set to Done, starting from s. -/
def storeAfter {σ : Type} (env : Env σ) : List Job → σ → σ
  | [], s => s
  | j :: js, s => storeAfter env js (env.updateDoc s { j with state := State.Done }).2

/-- The errors among the answers of the store, in order, as error values. -/
def failuresOf (answers : List (Option StoreErr)) : List Err :=
  answers.filterMap (fun r => r.map StoreErr.toErr)

/-- The documents sent to couchdb.UpdateDoc, in call order. -/
def updateAttempts : List Call → List Job
  | [] => []
  | Call.updateDoc j _ :: cs => j :: updateAttempts cs
  | _ :: cs => updateAttempts cs

/-- Whether a call writes to a collaborator: Scheduler.Add, Scheduler.Delete,
Broker.PushJob or couchdb.UpdateDoc. -/
def Call.isWrite : Call → Bool
  | .schedulerAdd _ => true
  | .schedulerDelete _ _ => true
  | .brokerPushJob _ => true
  | .updateDoc _ _ => true
  | _ => false

/-- The aggregate error holding the given failures: none when there is none. -/
def aggregate : List Err → Option Err
  | [] => none
  | e :: es => some (Err.multi (e :: es))

/-! ## An in-memory instance of the collaborators

Used to run the handlers on concrete requests. -/

/-- State of the in-memory collaborators. -/
structure World where
  /-- The triggers the Scheduler holds. -/
  triggers : List Trigger
  /-- The jobs the Broker has queued. -/
  queue : List Job
  /-- The job documents of the tenant. -/
  jobDocs : DocStore

/-- The error of a refused permission check in the in-memory instance. -/
def forbidden : Err := Err.other "forbidden"

/-- Replaces the stored job document having the id of j by j. -/
def replaceDoc (j : Job) : List RawDoc → List RawDoc
  | [] => []
  | RawDoc.job k :: ds => (if k.id = j.id then RawDoc.job j else RawDoc.job k) :: replaceDoc j ds
  | d :: ds => d :: replaceDoc j ds

/-- In-memory collaborators: every permission check answers granted; the Scheduler
knows the trigger types @cron, @at, @in and @event, the Broker the workers thumbnail,
log and sendmail; updates of the documents whose id is in failing are refused by the
store. -/
def memEnv (granted : Bool) (failing : List String) : Env World where
  allow := fun _ _ => if granted then none else some forbidden
  allowWholeType := fun _ _ => if granted then none else some forbidden
  parseDuration := fun d =>
    if d = "1h" then .ok Hour
    else if d = "1s" then .ok 1000000000
    else .error (Err.other ("time: invalid duration " ++ d))
  newTrigger := fun infos =>
    if infos.type = "@cron" ∨ infos.type = "@at" ∨ infos.type = "@in" ∨ infos.type = "@event" then
      .ok { infos := { infos with tid := "trigger-" ++ infos.arguments } }
    else .error Err.errUnknownTrigger
  schedulerAdd := fun w t => (none, { w with triggers := w.triggers ++ [t] })
  schedulerGet := fun w domain id =>
    match w.triggers.find? (fun t => decide (t.infos.domain = domain ∧ t.infos.tid = id)) with
    | some t => .ok t
    | none => .error Err.errNotFoundTrigger
  schedulerGetAll := fun w domain =>
    .ok (w.triggers.filter (fun t => decide (t.infos.domain = domain)))
  schedulerDelete := fun w domain id =>
    if w.triggers.any (fun t => decide (t.infos.domain = domain ∧ t.infos.tid = id)) then
      (none, { w with triggers :=
        w.triggers.filter (fun t => !decide (t.infos.domain = domain ∧ t.infos.tid = id)) })
    else (some Err.errNotFoundTrigger, w)
  brokerPushJob := fun w jr =>
    if jr.workerType = "thumbnail" ∨ jr.workerType = "log" ∨ jr.workerType = "sendmail" then
      let job : Job :=
        { id := "job-" ++ toString w.queue.length, rev := "1", domain := jr.domain,
          workerType := jr.workerType, message := jr.message, options := jr.options,
          state := State.Queued, queuedAt := 0, startedAt := 0 }
      (.ok job, { w with queue := w.queue ++ [job] })
    else (.error Err.errUnknownWorker, w)
  getQueuedJobs := fun w domain workerType =>
    .ok (w.queue.filter (fun j => decide (j.domain = domain ∧ j.workerType = workerType)))
  jobsGet := fun w domain id =>
    match w.queue.find? (fun j => decide (j.domain = domain ∧ j.id = id)) with
    | some j => .ok j
    | none => .error Err.errNotFoundJob
  docs := fun w doctype => if doctype = consts.Jobs then w.jobDocs else DocStore.missing
  updateDoc := fun w j =>
    if j.id ∈ failing then (some (StoreErr.other ("conflict: " ++ j.id)), w)
    else
      match w.jobDocs with
      | DocStore.missing => (some StoreErr.noDatabase, w)
      | DocStore.present rows failure =>
        (none, { w with jobDocs := DocStore.present (replaceDoc j rows) failure })

/-- A job document of the tenant alice.example for the worker thumbnail. -/
def mkJob (id : String) (state : State) (startedAt : Time) : Job :=
  { id := id, rev := "1", domain := "alice.example", workerType := "thumbnail", message := "",
    options := none, state := state, queuedAt := 0, startedAt := startedAt }

/-- Scan time of the reaper scenario: four hours on the time line. -/
def scenarioNow : Time := 4 * Hour

/-- The jobs of the reaper scenario: Running jobs started 2 hours, 30 minutes and
3 hours before scenarioNow, and one Queued job. -/
def scenarioJobs : List Job :=
  [ mkJob "a" State.Running (2 * Hour),
    mkJob "b" State.Running (4 * Hour - 1800000000000),
    mkJob "c" State.Running (1 * Hour),
    mkJob "d" State.Queued 0 ]

/-- The world of the reaper scenario. -/
def scenarioWorld : World :=
  { triggers := [], queue := [], jobDocs := DocStore.present (scenarioJobs.map RawDoc.job) none }

/-- A world with no trigger, no queued job and no job database. -/
def emptyWorld : World :=
  { triggers := [], queue := [], jobDocs := DocStore.missing }

/-- A trigger of the tenant alice.example. -/
def mkTrigger (tid workerType : String) : Trigger :=
  { infos := { tid := tid, type := "@cron", workerType := workerType, domain := "alice.example",
               arguments := "0 0 * * *", debounce := "", options := none, message := "" } }

/-- A world whose Scheduler holds three triggers. -/
def triggerWorld : World :=
  { triggers := [mkTrigger "t1" "thumbnail", mkTrigger "t2" "log", mkTrigger "t3" "thumbnail"],
    queue := [], jobDocs := DocStore.missing }

/-- A well-formed trigger request for the worker thumbnail, with the given debounce. -/
def mkTriggerRequest (debounce : String) : apiTriggerRequest :=
  { type := "@event", arguments := "io.cozy.files:CREATED", workerType := "thumbnail",
    workerArguments := "", debounce := debounce, options := none }

/-! ## Theorems -/

theorem Err.ne_notFound_self (e : Err) : e ≠ Err.notFound e := by
  intro h
  have hs := congrArg sizeOf h
  simp at hs

theorem Err.ne_invalidAttribute_self (n : String) (e : Err) : e ≠ Err.invalidAttribute n e := by
  intro h
  have hs := congrArg sizeOf h
  simp at hs

/-- Claim C4. wrapJobsError e is the not-found category around e exactly when e is
trigger-not-found, job-not-found or worker-unknown; it is the invalid-attribute
category naming the field "Type" exactly when e is trigger-type-unknown; every
other error is returned unchanged. -/
theorem wrapJobsError_spec (e : Err) :
    (wrapJobsError e = Err.notFound e ↔
      (e = Err.errNotFoundTrigger ∨ e = Err.errNotFoundJob ∨ e = Err.errUnknownWorker)) ∧
    (wrapJobsError e = Err.invalidAttribute "Type" e ↔ e = Err.errUnknownTrigger) ∧
    (e.isSentinel = false → wrapJobsError e = e) := by
  have h1 := Err.ne_notFound_self e
  have h2 := Err.ne_invalidAttribute_self "Type" e
  cases e <;> simp_all [wrapJobsError, Err.isSentinel]

/-- Witness of C4: an error that is no sentinel comes back unchanged. -/
theorem wrapJobsError_spec_other :
    wrapJobsError (Err.other "connection refused") = Err.other "connection refused" :=
  (wrapJobsError_spec (Err.other "connection refused")).2.2 rfl

/-! ### The reaper -/

theorem multierrorAppend_aggregate (fs : List Err) (e : StoreErr) :
    multierrorAppend (aggregate fs) e.toErr = Err.multi (fs ++ [e.toErr]) := by
  cases fs <;> cases e <;> simp [multierrorAppend, aggregate, StoreErr.toErr]

theorem aggregate_append_singleton (fs : List Err) (e : Err) :
    some (Err.multi (fs ++ [e])) = aggregate (fs ++ [e]) := by
  cases fs <;> simp [aggregate]

/-- The update loop, from the aggregate of the failures fs and the calls made so
far: it leaves the store as one write per job does, aggregates the failures the
store answered and records one call per job. -/
theorem updateLoop_eq {σ : Type} (env : Env σ) (ups : List Job) (s : σ) (fs : List Err)
    (calls : List Call) :
    updateLoop env ups s (aggregate fs) calls =
      (storeAfter env ups s,
       aggregate (fs ++ failuresOf (storeAnswers env ups s)),
       calls ++ List.zipWith
         (fun j r => Call.updateDoc { j with state := State.Done } (r.map StoreErr.toErr))
         ups (storeAnswers env ups s)) := by
  induction ups generalizing s fs calls with
  | nil => simp [updateLoop, storeAfter, storeAnswers, failuresOf]
  | cons j js ih =>
    simp only [updateLoop, storeAfter, storeAnswers]
    rcases h : env.updateDoc s { j with state := State.Done } with ⟨r, s'⟩
    cases r with
    | none =>
      simp only []
      rw [ih]
      simp [failuresOf]
    | some e =>
      simp only []
      rw [multierrorAppend_aggregate, aggregate_append_singleton, ih]
      simp [failuresOf]

theorem cleanJobsFinish_eq {σ : Type} (env : Env σ) (s : σ) (calls : List Call)
    (ups : List Job) :
    cleanJobsFinish env s calls ups =
      ⟨match failuresOf (storeAnswers env ups s) with
        | [] => .ok (Response.deleted 200 ups.length)
        | e :: es => .error (Err.multi (e :: es)),
       storeAfter env ups s,
       calls ++ List.zipWith
         (fun j r => Call.updateDoc { j with state := State.Done } (r.map StoreErr.toErr))
         ups (storeAnswers env ups s)⟩ := by
  have h := updateLoop_eq env ups s [] calls
  simp only [aggregate, List.nil_append] at h
  unfold cleanJobsFinish
  rw [h]
  cases hf : failuresOf (storeAnswers env ups s) <;> simp [aggregate]

theorem foreachRows_jobs (now : Time) (jobs : List Job) (acc : List Job) :
    foreachRows (cleanJobsCallback now) (jobs.map RawDoc.job) acc =
      (acc ++ jobs.filter (isStale now), none) := by
  induction jobs generalizing acc with
  | nil => simp [foreachRows]
  | cons j js ih =>
    simp only [List.map_cons, foreachRows, cleanJobsCallback, unmarshal]
    by_cases h1 : j.state = State.Running
    · by_cases h2 : j.startedAt + Hour < now
      · simp [h1, h2, ih, isStale, List.filter_cons]
      · simp [h1, h2, ih, isStale, List.filter_cons]
    · simp [h1, ih, isStale, List.filter_cons]

/-- On a store whose traversal succeeds and yields the given jobs, cleanJobs makes
the permission check, the traversal and then the update loop on the stale jobs. -/
theorem cleanJobs_calls_of_scan {σ : Type} (env : Env σ) (s : σ) (now : Time) (jobs : List Job)
    (hperm : env.allowWholeType Verb.GET consts.Jobs = none)
    (hscan : env.docs s consts.Jobs = DocStore.present (jobs.map RawDoc.job) none) :
    cleanJobs env s now =
      cleanJobsFinish env s
        [Call.allowWholeType Verb.GET consts.Jobs, Call.foreachDocs consts.Jobs]
        (jobs.filter (isStale now)) := by
  simp [cleanJobs, hperm, hscan, ForeachDocs, foreachRows_jobs]

theorem failuresOf_of_all_none (answers : List (Option StoreErr))
    (h : ∀ r ∈ answers, r = none) : failuresOf answers = [] := by
  induction answers with
  | nil => rfl
  | cons r rs ih =>
    have hr : r = none := h r (List.mem_cons_self _ _)
    subst hr
    simpa [failuresOf] using ih (fun r hr => h r (List.mem_cons_of_mem _ hr))

theorem zipWith_of_all_none (ups : List Job) (answers : List (Option StoreErr))
    (hlen : answers.length = ups.length) (h : ∀ r ∈ answers, r = none) :
    List.zipWith
        (fun j r => Call.updateDoc { j with state := State.Done } (r.map StoreErr.toErr))
        ups answers =
      ups.map (fun j => Call.updateDoc { j with state := State.Done } none) := by
  induction ups generalizing answers with
  | nil => simp
  | cons j js ih =>
    cases answers with
    | nil => simp at hlen
    | cons r rs =>
      have hr : r = none := h r (List.mem_cons_self _ _)
      subst hr
      simp only [List.zipWith_cons_cons, List.map_cons, Option.map_none']
      rw [ih rs (by simpa using hlen) (fun r hr => h r (List.mem_cons_of_mem _ hr))]

theorem storeAnswers_length {σ : Type} (env : Env σ) (ups : List Job) (s : σ) :
    (storeAnswers env ups s).length = ups.length := by
  induction ups generalizing s with
  | nil => rfl
  | cons j js ih => simp [storeAnswers, ih]

theorem foreachRows_append_malformed (now : Time) (pre : List Job) (msg : String)
    (post : List RawDoc) :
    foreachRows (cleanJobsCallback now) (pre.map RawDoc.job ++ RawDoc.malformed msg :: post) [] =
      (pre.filter (isStale now), some (Err.other msg)) := by
  have key : ∀ (js : List Job) (acc : List Job),
      foreachRows (cleanJobsCallback now) (js.map RawDoc.job ++ RawDoc.malformed msg :: post) acc =
        (acc ++ js.filter (isStale now), some (Err.other msg)) := by
    intro js
    induction js with
    | nil => intro acc; simp [foreachRows, cleanJobsCallback, unmarshal]
    | cons j js ih =>
      intro acc
      simp only [List.map_cons, List.cons_append, foreachRows, cleanJobsCallback, unmarshal]
      by_cases h1 : j.state = State.Running
      · by_cases h2 : j.startedAt + Hour < now
        · simp [h1, h2, ih, isStale, List.filter_cons]
        · simp [h1, h2, ih, isStale, List.filter_cons]
      · simp [h1, ih, isStale, List.filter_cons]
  simpa using key pre []

/-- Claim C1. When the permission check passes, the traversal succeeds and yields the
given jobs, and the store accepts every write made to it, cleanJobs writes to the
store exactly the jobs that are Running and started more than one hour before now,
each once, with its state set to Done and in scan order: the store is left as those
writes through env.updateDoc leave it, the calls recorded are the check, the
traversal and those writes, no other job is sent, and the value reported is the
number of those jobs as the deleted count with status 200. -/
theorem cleanJobs_reaps_exactly_stale {σ : Type} (env : Env σ) (s : σ) (now : Time)
    (jobs : List Job)
    (hperm : env.allowWholeType Verb.GET consts.Jobs = none)
    (hscan : env.docs s consts.Jobs = DocStore.present (jobs.map RawDoc.job) none)
    (hupd : ∀ r ∈ storeAnswers env
      (jobs.filter (fun j => decide (j.state = State.Running ∧ j.startedAt + Hour < now))) s,
      r = none) :
    (cleanJobs env s now).state =
      List.foldl (fun st j => (env.updateDoc st { j with state := State.Done }).2) s
        (jobs.filter (fun j => decide (j.state = State.Running ∧ j.startedAt + Hour < now))) ∧
    (cleanJobs env s now).calls =
      [Call.allowWholeType Verb.GET consts.Jobs, Call.foreachDocs consts.Jobs] ++
        (jobs.filter (fun j => decide (j.state = State.Running ∧ j.startedAt + Hour < now))).map
          (fun j => Call.updateDoc { j with state := State.Done } none) ∧
    (cleanJobs env s now).result =
      .ok (Response.deleted 200
        (jobs.filter
          (fun j => decide (j.state = State.Running ∧ j.startedAt + Hour < now))).length) := by
  have hfold : ∀ (ups : List Job) (st : σ),
      storeAfter env ups st =
        List.foldl (fun st j => (env.updateDoc st { j with state := State.Done }).2) st ups := by
    intro ups
    induction ups with
    | nil => intro st; rfl
    | cons j js ih => intro st; simp [storeAfter, ih]
  have hstale : (fun j => decide (j.state = State.Running ∧ j.startedAt + Hour < now)) =
      isStale now := rfl
  rw [hstale] at hupd ⊢
  rw [cleanJobs_calls_of_scan env s now jobs hperm hscan, cleanJobsFinish_eq,
    failuresOf_of_all_none _ hupd,
    zipWith_of_all_none _ _ (storeAnswers_length env _ s) hupd, hfold]
  exact ⟨rfl, rfl, rfl⟩

/-- Witness of C1, the reaper scenario: Running jobs started 2 hours (a), 30 minutes (b)
and 3 hours (c) before the scan and one Queued job (d). The store ends with a and c
Done, b still Running and d still Queued, the writes are those of a and c, and the
deleted count is 2. -/
theorem cleanJobs_reaps_exactly_stale_scenario :
    (cleanJobs (memEnv true []) scenarioWorld scenarioNow).state.jobDocs =
      DocStore.present
        [RawDoc.job (mkJob "a" State.Done (2 * Hour)),
         RawDoc.job (mkJob "b" State.Running (4 * Hour - 1800000000000)),
         RawDoc.job (mkJob "c" State.Done (1 * Hour)),
         RawDoc.job (mkJob "d" State.Queued 0)] none ∧
    (cleanJobs (memEnv true []) scenarioWorld scenarioNow).calls =
      [Call.allowWholeType Verb.GET consts.Jobs, Call.foreachDocs consts.Jobs,
       Call.updateDoc (mkJob "a" State.Done (2 * Hour)) none,
       Call.updateDoc (mkJob "c" State.Done (1 * Hour)) none] ∧
    (cleanJobs (memEnv true []) scenarioWorld scenarioNow).result =
      .ok (Response.deleted 200 2) :=
  have h := cleanJobs_reaps_exactly_stale (memEnv true []) scenarioWorld scenarioNow scenarioJobs
    rfl rfl (by decide)
  ⟨congrArg World.jobDocs h.1, h.2.1, h.2.2⟩

/-- Claim C5. When the permission check passes and the traversal yields the given jobs,
then for every store, whatever it answers to each write, cleanJobs writes every
stale job to the store exactly once, in scan order, a failure on one job not
keeping the next from being written: the store is left as one write per stale job
through env.updateDoc leaves it, and the calls recorded are one per stale job with
the answer of the store. When the store refused no write the result is the count of
stale jobs; when it refused some, the result is the aggregate error holding the
error of every refused write, one per failed job and in order, and no count. -/
theorem cleanJobs_batch {σ : Type} (env : Env σ) (s : σ) (now : Time) (jobs : List Job)
    (hperm : env.allowWholeType Verb.GET consts.Jobs = none)
    (hscan : env.docs s consts.Jobs = DocStore.present (jobs.map RawDoc.job) none) :
    (cleanJobs env s now).state = storeAfter env (jobs.filter (isStale now)) s ∧
    (cleanJobs env s now).calls =
      [Call.allowWholeType Verb.GET consts.Jobs, Call.foreachDocs consts.Jobs] ++
        List.zipWith
          (fun j r => Call.updateDoc { j with state := State.Done } (r.map StoreErr.toErr))
          (jobs.filter (isStale now)) (storeAnswers env (jobs.filter (isStale now)) s) ∧
    ((storeAnswers env (jobs.filter (isStale now)) s).filterMap (Option.map StoreErr.toErr) = [] →
      (cleanJobs env s now).result =
        .ok (Response.deleted 200 (jobs.filter (isStale now)).length)) ∧
    ((storeAnswers env (jobs.filter (isStale now)) s).filterMap (Option.map StoreErr.toErr) ≠ [] →
      (cleanJobs env s now).result =
        .error (Err.multi
          ((storeAnswers env (jobs.filter (isStale now)) s).filterMap
            (Option.map StoreErr.toErr)))) := by
  have hf : ∀ answers : List (Option StoreErr),
      answers.filterMap (Option.map StoreErr.toErr) = failuresOf answers := fun _ => rfl
  rw [cleanJobs_calls_of_scan env s now jobs hperm hscan, cleanJobsFinish_eq, hf]
  refine ⟨rfl, rfl, ?_, ?_⟩
  · intro h
    simp only [h]
  · intro h
    cases hfl : failuresOf (storeAnswers env (jobs.filter (isStale now)) s) with
    | nil => exact absurd hfl h
    | cons e es => rfl

/-- Witness of C5: in the reaper scenario with the writes of both a and c refused, a and
c are both written once and the result is the aggregate holding the two failures in
order; with the write of a alone refused, c is still written, so the store ends
with a Running and c Done, and the result is the aggregate of the one failure. -/
theorem cleanJobs_batch_scenario :
    (cleanJobs (memEnv true ["a", "c"]) scenarioWorld scenarioNow).calls =
      [Call.allowWholeType Verb.GET consts.Jobs, Call.foreachDocs consts.Jobs,
       Call.updateDoc (mkJob "a" State.Done (2 * Hour)) (some (Err.other "conflict: a")),
       Call.updateDoc (mkJob "c" State.Done (1 * Hour)) (some (Err.other "conflict: c"))] ∧
    (cleanJobs (memEnv true ["a", "c"]) scenarioWorld scenarioNow).result =
      .error (Err.multi [Err.other "conflict: a", Err.other "conflict: c"]) ∧
    (cleanJobs (memEnv true ["a"]) scenarioWorld scenarioNow).state.jobDocs =
      DocStore.present
        [RawDoc.job (mkJob "a" State.Running (2 * Hour)),
         RawDoc.job (mkJob "b" State.Running (4 * Hour - 1800000000000)),
         RawDoc.job (mkJob "c" State.Done (1 * Hour)),
         RawDoc.job (mkJob "d" State.Queued 0)] none ∧
    (cleanJobs (memEnv true ["a"]) scenarioWorld scenarioNow).result =
      .error (Err.multi [Err.other "conflict: a"]) :=
  have h := cleanJobs_batch (memEnv true ["a", "c"]) scenarioWorld scenarioNow scenarioJobs
    rfl rfl
  have hfail : (storeAnswers (memEnv true ["a", "c"])
      (scenarioJobs.filter (isStale scenarioNow)) scenarioWorld).filterMap
        (Option.map StoreErr.toErr) = [Err.other "conflict: a", Err.other "conflict: c"] := rfl
  have h1 := cleanJobs_batch (memEnv true ["a"]) scenarioWorld scenarioNow scenarioJobs rfl rfl
  have hfail1 : (storeAnswers (memEnv true ["a"])
      (scenarioJobs.filter (isStale scenarioNow)) scenarioWorld).filterMap
        (Option.map StoreErr.toErr) = [Err.other "conflict: a"] := rfl
  ⟨h.2.1, h.2.2.2 (fun hne => List.cons_ne_nil _ _ (hfail.symm.trans hne)),
   congrArg World.jobDocs h1.1,
   h1.2.2.2 (fun hne => List.cons_ne_nil _ _ (hfail1.symm.trans hne))⟩

theorem cleanJobsCallback_job (now : Time) (acc : List Job) (j : Job) :
    (cleanJobsCallback now acc (RawDoc.job j)).2 = none := by
  simp only [cleanJobsCallback, unmarshal]
  split
  · rfl
  · split <;> rfl

theorem foreachRows_error_other (now : Time) (rows : List RawDoc)
    (acc ups : List Job) (e : Err)
    (h : foreachRows (cleanJobsCallback now) rows acc = (ups, some e)) :
    IsNoDatabaseError e = false := by
  induction rows generalizing acc with
  | nil => simp [foreachRows] at h
  | cons d ds ih =>
    cases d with
    | malformed msg =>
      simp only [foreachRows, cleanJobsCallback, unmarshal, Prod.mk.injEq, Option.some.injEq] at h
      rw [← h.2]
      rfl
    | job j =>
      have hcb := cleanJobsCallback_job now acc j
      rcases hr : cleanJobsCallback now acc (RawDoc.job j) with ⟨acc', r⟩
      rw [hr] at hcb
      simp only at hcb
      subst hcb
      simp only [foreachRows, hr] at h
      exact ih _ h

/-- A traversal that ends on the no-database error was made on a missing database
and has handed no document to the callback. -/
theorem ForeachDocs_noDatabase (now : Time) (store : DocStore) (ups : List Job) (e : Err)
    (h : ForeachDocs store (cleanJobsCallback now) [] = (ups, some e))
    (hno : IsNoDatabaseError e = true) : store = DocStore.missing ∧ ups = [] := by
  cases store with
  | missing =>
    simp only [ForeachDocs, Prod.mk.injEq] at h
    exact ⟨rfl, h.1.symm⟩
  | present rows failure =>
    exfalso
    simp only [ForeachDocs] at h
    rcases hr : foreachRows (cleanJobsCallback now) rows [] with ⟨acc', r⟩
    rw [hr] at h
    cases r with
    | some err =>
      simp only [Prod.mk.injEq, Option.some.injEq] at h
      have := foreachRows_error_other now rows [] acc' err hr
      rw [h.2, hno] at this
      cases this
    | none =>
      cases failure with
      | none => simp at h
      | some msg =>
        simp only [Option.map_some', Prod.mk.injEq, Option.some.injEq] at h
        rw [← h.2] at hno
        cases hno

/-- Claim C6. When the permission check passes and the traversal of the job documents
fails with the no-database error, cleanJobs does not fail: it makes no update call,
leaves the state as it was and reports the deleted count 0. -/
theorem cleanJobs_missing_store {σ : Type} (env : Env σ) (s : σ) (now : Time)
    (ups : List Job) (e : Err)
    (hperm : env.allowWholeType Verb.GET consts.Jobs = none)
    (hscan : ForeachDocs (env.docs s consts.Jobs) (cleanJobsCallback now) [] = (ups, some e))
    (hno : IsNoDatabaseError e = true) :
    cleanJobs env s now =
      ⟨.ok (Response.deleted 200 0), s,
        [Call.allowWholeType Verb.GET consts.Jobs, Call.foreachDocs consts.Jobs]⟩ := by
  obtain ⟨_, hups⟩ := ForeachDocs_noDatabase now _ ups e hscan hno
  subst hups
  simp [cleanJobs, hperm, hscan, hno, cleanJobsFinish, updateLoop]

/-- Witness of C6: the reaper on a world without a job database. -/
theorem cleanJobs_missing_store_emptyWorld :
    (cleanJobs (memEnv true []) emptyWorld scenarioNow).result = .ok (Response.deleted 200 0) ∧
    updateAttempts (cleanJobs (memEnv true []) emptyWorld scenarioNow).calls = [] :=
  have h := cleanJobs_missing_store (memEnv true []) emptyWorld scenarioNow [] Err.noDatabase
    rfl rfl rfl
  ⟨congrArg Outcome.result h, congrArg (fun o => updateAttempts o.calls) h⟩

/-- Claim C10. If the type-wide permission check fails, cleanJobs returns its error
after that single call: no traversal, no update. If the check passes and the
traversal fails with an error other than no-database, cleanJobs returns that error
with no update call and the state unchanged, whatever the callback had collected;
this is the case when a document cannot be decoded after stale jobs were read. -/
theorem cleanJobs_scan_failure {σ : Type} (env : Env σ) (s : σ) (now : Time) :
    (∀ e, env.allowWholeType Verb.GET consts.Jobs = some e →
      cleanJobs env s now = ⟨.error e, s, [Call.allowWholeType Verb.GET consts.Jobs]⟩) ∧
    (env.allowWholeType Verb.GET consts.Jobs = none →
      ∀ ups e, ForeachDocs (env.docs s consts.Jobs) (cleanJobsCallback now) [] = (ups, some e) →
        IsNoDatabaseError e = false →
        cleanJobs env s now =
          ⟨.error e, s,
            [Call.allowWholeType Verb.GET consts.Jobs, Call.foreachDocs consts.Jobs]⟩) ∧
    (env.allowWholeType Verb.GET consts.Jobs = none →
      ∀ (pre : List Job) (msg : String) (post : List RawDoc) (failure : Option String),
        env.docs s consts.Jobs =
          DocStore.present (pre.map RawDoc.job ++ RawDoc.malformed msg :: post) failure →
        cleanJobs env s now =
          ⟨.error (Err.other msg), s,
            [Call.allowWholeType Verb.GET consts.Jobs, Call.foreachDocs consts.Jobs]⟩) := by
  refine ⟨?_, ?_, ?_⟩
  · intro e hperm
    simp [cleanJobs, hperm]
  · intro hperm ups e hscan hno
    simp [cleanJobs, hperm, hscan, hno]
  · intro hperm pre msg post failure hdocs
    simp [cleanJobs, hperm, hdocs, ForeachDocs, foreachRows_append_malformed, IsNoDatabaseError]

/-- Witness of C10: a refused permission check on the reaper scenario, and a
store holding a stale Running job followed by an undecodable document. -/
theorem cleanJobs_scan_failure_examples :
    cleanJobs (memEnv false []) scenarioWorld scenarioNow =
      ⟨.error forbidden, scenarioWorld, [Call.allowWholeType Verb.GET consts.Jobs]⟩ ∧
    (cleanJobs (memEnv true [])
        { triggers := [], queue := [],
          jobDocs := DocStore.present
            [RawDoc.job (mkJob "a" State.Running 0),
             RawDoc.malformed "unexpected end of JSON input"] none }
        scenarioNow).result = .error (Err.other "unexpected end of JSON input") :=
  ⟨(cleanJobs_scan_failure (memEnv false []) scenarioWorld scenarioNow).1 forbidden rfl,
   congrArg Outcome.result
    ((cleanJobs_scan_failure (memEnv true [])
        { triggers := [], queue := [],
          jobDocs := DocStore.present
            [RawDoc.job (mkJob "a" State.Running 0),
             RawDoc.malformed "unexpected end of JSON input"] none }
        scenarioNow).2.2 rfl [mkJob "a" State.Running 0]
          "unexpected end of JSON input" [] none rfl)⟩

/-! ### Triggers -/

theorem filterLoop_eq (workerFilter : String) (ts : List Trigger) (objs : List Obj) :
    filterLoop workerFilter ts objs =
      objs ++ (ts.filter
        (fun t => decide (workerFilter = "" ∨ t.infos.workerType = workerFilter))).map
          Obj.apiTrigger := by
  induction ts generalizing objs with
  | nil => simp [filterLoop]
  | cons t ts ih =>
    by_cases h : workerFilter = "" ∨ t.infos.workerType = workerFilter
    · simp [filterLoop, h, ih, List.filter_cons]
    · simp [filterLoop, h, ih, List.filter_cons]

/-- Claim C3. When the type-wide permission check passes and the Scheduler returns
the triggers ts, getAllTriggers answers, for a non-empty filter, the triggers of ts
whose worker type equals the filter, in the order of ts, and for the empty filter
all of ts in order. -/
theorem getAllTriggers_filters {σ : Type} (env : Env σ) (s : σ) (domain workerFilter : String)
    (ts : List Trigger)
    (hperm : env.allowWholeType Verb.GET consts.Triggers = none)
    (hall : env.schedulerGetAll s domain = .ok ts) :
    (workerFilter ≠ "" →
      (getAllTriggers env s domain workerFilter).result =
        .ok (Response.dataList 200
          ((ts.filter (fun t => decide (t.infos.workerType = workerFilter))).map
            Obj.apiTrigger))) ∧
    (workerFilter = "" →
      (getAllTriggers env s domain workerFilter).result =
        .ok (Response.dataList 200 (ts.map Obj.apiTrigger))) := by
  refine ⟨?_, ?_⟩
  · intro hne
    simp [getAllTriggers, hperm, hall, filterLoop_eq, hne]
  · intro he
    simp [getAllTriggers, hperm, hall, filterLoop_eq, he]

/-- Witness of C3: of the triggers t1 (thumbnail), t2 (log), t3 (thumbnail), the
filter thumbnail keeps t1 and t3 in that order and the empty filter keeps all. -/
theorem getAllTriggers_filters_thumbnail :
    (getAllTriggers (memEnv true []) triggerWorld "alice.example" "thumbnail").result =
      .ok (Response.dataList 200
        [Obj.apiTrigger (mkTrigger "t1" "thumbnail"), Obj.apiTrigger (mkTrigger "t3" "thumbnail")]) ∧
    (getAllTriggers (memEnv true []) triggerWorld "alice.example" "").result =
      .ok (Response.dataList 200
        [Obj.apiTrigger (mkTrigger "t1" "thumbnail"), Obj.apiTrigger (mkTrigger "t2" "log"),
         Obj.apiTrigger (mkTrigger "t3" "thumbnail")]) :=
  ⟨(getAllTriggers_filters (memEnv true []) triggerWorld "alice.example" "thumbnail"
      triggerWorld.triggers rfl rfl).1 (by decide),
   (getAllTriggers_filters (memEnv true []) triggerWorld "alice.example" ""
      triggerWorld.triggers rfl rfl).2 rfl⟩

/-- Claim C2. A trigger request whose debounce is non-empty and rejected by
time.ParseDuration makes newTrigger fail with the invalid-attribute category naming
the field debounce, with no collaborator call at all (no trigger construction, no
permission check, no Scheduler.Add) and the state unchanged; with an empty debounce
the check rejects nothing and newTrigger goes on to construct the trigger. -/
theorem newTrigger_debounce_check {σ : Type} (env : Env σ) (s : σ) (domain : String)
    (req : apiTriggerRequest) :
    (∀ e, req.debounce ≠ "" → env.parseDuration req.debounce = .error e →
      newTrigger env s domain (.ok req) =
        ⟨.error (Err.invalidAttribute "debounce" e), s, []⟩) ∧
    (req.debounce = "" →
      checkDebounce env req.debounce = none ∧
      (newTrigger env s domain (.ok req)).calls.head? =
        some (Call.newTrigger
          { tid := "", type := req.type, workerType := req.workerType, domain := domain,
            arguments := req.arguments, debounce := req.debounce, options := req.options,
            message := req.workerArguments })) := by
  refine ⟨?_, ?_⟩
  · intro e hne hparse
    simp [newTrigger, checkDebounce, hne, hparse]
  · intro hempty
    have hc : checkDebounce env req.debounce = none := by simp [checkDebounce, hempty]
    refine ⟨hc, ?_⟩
    simp only [newTrigger, hc]
    split
    · rfl
    · split
      · rfl
      · split <;> rfl

/-- Witness of C2: the debounce not-a-duration is rejected before any call, and the
same request with an empty debounce reaches the trigger construction. -/
theorem newTrigger_debounce_check_not_a_duration :
    newTrigger (memEnv true []) emptyWorld "alice.example" (.ok (mkTriggerRequest "not-a-duration")) =
      ⟨.error (Err.invalidAttribute "debounce" (Err.other "time: invalid duration not-a-duration")),
        emptyWorld, []⟩ ∧
    checkDebounce (memEnv true []) (mkTriggerRequest "").debounce = none :=
  ⟨(newTrigger_debounce_check (memEnv true []) emptyWorld "alice.example"
      (mkTriggerRequest "not-a-duration")).1 _ (by decide) rfl,
   ((newTrigger_debounce_check (memEnv true []) emptyWorld "alice.example"
      (mkTriggerRequest "")).2 rfl).1⟩

/-- Claim C7, as the code has it. In newTrigger the trigger is constructed and validated
by scheduler.NewTrigger before the permission check, and the permission check comes
before Scheduler.Add: for every request that passes the debounce check and whose
trigger is constructed, a failing permission check returns the error of the check
after exactly those two calls, with no Scheduler.Add call and the state unchanged. -/
theorem newTrigger_permission_before_add {σ : Type} (env : Env σ) (s : σ) (domain : String)
    (req : apiTriggerRequest) (t : Trigger) (e : Err)
    (hdeb : checkDebounce env req.debounce = none)
    (hnew : env.newTrigger
      { tid := "", type := req.type, workerType := req.workerType, domain := domain,
        arguments := req.arguments, debounce := req.debounce, options := req.options,
        message := req.workerArguments } = .ok t)
    (hperm : env.allow Verb.POST (Resource.trigger t) = some e) :
    newTrigger env s domain (.ok req) =
      ⟨.error e, s,
        [Call.newTrigger
          { tid := "", type := req.type, workerType := req.workerType, domain := domain,
            arguments := req.arguments, debounce := req.debounce, options := req.options,
            message := req.workerArguments },
         Call.allow Verb.POST (Resource.trigger t)]⟩ := by
  simp [newTrigger, hdeb, hnew, hperm]

/-- Witness of C7 as amended: a well-formed request with debounce 1h on a Scheduler
holding three triggers, the permission check refused. -/
theorem newTrigger_permission_before_add_example :
    (newTrigger (memEnv false []) triggerWorld "alice.example"
      (.ok (mkTriggerRequest "1h"))).result = .error forbidden ∧
    (newTrigger (memEnv false []) triggerWorld "alice.example"
      (.ok (mkTriggerRequest "1h"))).state.triggers = triggerWorld.triggers :=
  have h := newTrigger_permission_before_add (memEnv false []) triggerWorld "alice.example"
    (mkTriggerRequest "1h")
    { infos := { tid := "trigger-io.cozy.files:CREATED", type := "@event",
                 workerType := "thumbnail", domain := "alice.example",
                 arguments := "io.cozy.files:CREATED", debounce := "1h", options := none,
                 message := "" } }
    forbidden rfl rfl rfl
  ⟨congrArg Outcome.result h, congrArg (fun o => o.state.triggers) h⟩

/-- Counterexample to C7 as stated: a well-formed trigger request whose permission
check fails leaves the Scheduler without any trigger, and Scheduler.Add is not
among the calls made. -/
theorem newTrigger_denied_not_persisted :
    (newTrigger (memEnv false []) emptyWorld "alice.example"
      (.ok (mkTriggerRequest ""))).result = .error forbidden ∧
    (newTrigger (memEnv false []) emptyWorld "alice.example"
      (.ok (mkTriggerRequest ""))).state.triggers = [] ∧
    ((newTrigger (memEnv false []) emptyWorld "alice.example"
      (.ok (mkTriggerRequest ""))).calls.filter Call.isWrite).length = 0 := by
  refine ⟨rfl, rfl, rfl⟩

/-- Claim C8. In pushJob, deleteTrigger and launchTrigger a failing permission check
returns the error of the check itself, not passed through wrapJobsError, and the
handler stops there: the calls made are the ones before the check and the check, so
no Broker.PushJob and no Scheduler.Delete, and the state is the one before the call. -/
theorem permission_failure_stops_before_write {σ : Type} (env : Env σ) (s : σ)
    (domain : String) :
    (∀ (workerType : String) (req : apiJobRequest) (e : Err),
      env.allow Verb.POST (Resource.jobRequest
        { domain := domain, workerType := workerType, options := req.options,
          message := req.arguments }) = some e →
      pushJob env s domain workerType (.ok req) =
        ⟨.error e, s,
          [Call.allow Verb.POST (Resource.jobRequest
            { domain := domain, workerType := workerType, options := req.options,
              message := req.arguments })]⟩) ∧
    (∀ (triggerID : String) (t : Trigger) (e : Err),
      env.schedulerGet s domain triggerID = .ok t →
      env.allow Verb.DELETE (Resource.trigger t) = some e →
      deleteTrigger env s domain triggerID =
        ⟨.error e, s,
          [Call.schedulerGet domain triggerID, Call.allow Verb.DELETE (Resource.trigger t)]⟩) ∧
    (∀ (triggerID : String) (t : Trigger) (e : Err),
      env.schedulerGet s domain triggerID = .ok t →
      env.allow Verb.POST (Resource.trigger t) = some e →
      launchTrigger env s domain triggerID =
        ⟨.error e, s,
          [Call.schedulerGet domain triggerID, Call.allow Verb.POST (Resource.trigger t)]⟩) := by
  refine ⟨?_, ?_, ?_⟩
  · intro workerType req e hperm
    simp [pushJob, hperm]
  · intro triggerID t e hget hperm
    simp [deleteTrigger, hget, hperm]
  · intro triggerID t e hget hperm
    simp [launchTrigger, hget, hperm]

/-- Witness of C8: with every permission check refused, a job submission, the deletion
of trigger t2 and the launch of trigger t2 return the error of the check and leave
the queue and the triggers as they were. -/
theorem permission_failure_stops_before_write_example :
    (pushJob (memEnv false []) triggerWorld "alice.example" "thumbnail"
      (.ok { arguments := "", options := none })).result = .error forbidden ∧
    (deleteTrigger (memEnv false []) triggerWorld "alice.example" "t2").state.triggers =
      triggerWorld.triggers ∧
    (launchTrigger (memEnv false []) triggerWorld "alice.example" "t2").state.queue = [] :=
  have h := permission_failure_stops_before_write (memEnv false []) triggerWorld "alice.example"
  ⟨congrArg Outcome.result (h.1 "thumbnail" { arguments := "", options := none } forbidden rfl),
   congrArg (fun o => o.state.triggers) (h.2.1 "t2" (mkTrigger "t2" "log") forbidden rfl rfl),
   congrArg (fun o => o.state.queue) (h.2.2 "t2" (mkTrigger "t2" "log") forbidden rfl rfl)⟩

/-! ### Error translation in the handlers -/

/-- The error a handler returns when a Broker, Scheduler or job-lookup call fails
with err goes through wrapJobsError in getQueue, pushJob, newTrigger, getTrigger,
getAllTriggers, deleteTrigger and launchTrigger. -/
theorem collaborator_errors_translated {σ : Type} (env : Env σ) (s : σ) (domain : String)
    (err : Err) :
    (∀ w, env.allow Verb.GET (Resource.queue w) = none →
      env.getQueuedJobs s domain w = .error err →
      (getQueue env s domain w).result = .error (wrapJobsError err)) ∧
    (∀ w req s', env.allow Verb.POST (Resource.jobRequest
        { domain := domain, workerType := w, options := req.options,
          message := req.arguments }) = none →
      env.brokerPushJob s
        { domain := domain, workerType := w, options := req.options,
          message := req.arguments } = (.error err, s') →
      (pushJob env s domain w (.ok req)).result = .error (wrapJobsError err)) ∧
    (∀ req, checkDebounce env req.debounce = none →
      env.newTrigger
        { tid := "", type := req.type, workerType := req.workerType, domain := domain,
          arguments := req.arguments, debounce := req.debounce, options := req.options,
          message := req.workerArguments } = .error err →
      (newTrigger env s domain (.ok req)).result = .error (wrapJobsError err)) ∧
    (∀ id, env.schedulerGet s domain id = .error err →
      (getTrigger env s domain id).result = .error (wrapJobsError err) ∧
      (deleteTrigger env s domain id).result = .error (wrapJobsError err) ∧
      (launchTrigger env s domain id).result = .error (wrapJobsError err)) ∧
    (∀ f, env.allowWholeType Verb.GET consts.Triggers = none →
      env.schedulerGetAll s domain = .error err →
      (getAllTriggers env s domain f).result = .error (wrapJobsError err)) := by
  refine ⟨?_, ?_, ?_, ?_, ?_⟩
  · intro w hperm h
    simp [getQueue, hperm, h]
  · intro w req s' hperm h
    simp [pushJob, hperm, h]
  · intro req hdeb h
    simp [newTrigger, hdeb, h]
  · intro id h
    simp [getTrigger, deleteTrigger, launchTrigger, h]
  · intro f hperm h
    simp [getAllTriggers, hperm, h]

/-- In getJob the error of the lookup jobs.Get is returned as it is. -/
theorem getJob_returns_lookup_error {σ : Type} (env : Env σ) (s : σ) (domain jobID : String)
    (err : Err) (h : env.jobsGet s domain jobID = .error err) :
    getJob env s domain jobID = ⟨.error err, s, [Call.jobsGet domain jobID]⟩ := by
  simp [getJob, h]

/-- Claim C9, at the failing input: getJob for a job id the store does not hold returns
the sentinel jobs.ErrNotFoundJob itself, while wrapJobsError would have made the
not-found category of it. -/
theorem getJob_unknown_id_returns_sentinel :
    (getJob (memEnv true []) emptyWorld "alice.example" "unknown-id").result =
      .error Err.errNotFoundJob ∧
    wrapJobsError Err.errNotFoundJob = Err.notFound Err.errNotFoundJob ∧
    Err.errNotFoundJob ≠ Err.notFound Err.errNotFoundJob :=
  ⟨rfl, rfl, Err.ne_notFound_self Err.errNotFoundJob⟩

end Jobs
